import Mathlib

/-!
Verification of the reminder parsing and scheduling engine of
`line-reminder-robot` (`src/main.py`), as a shallow embedding.

Texts are modelled as `List Char`.  Python `re` matching for the fixed
patterns of the source is implemented directly: `re.search` scans start
positions left to right and, at a position, quantifiers are greedy with
backtracking; `re.sub` removes leftmost non-overlapping matches in a
single pass.  `\d` is modelled as the ASCII digits and `\s` as the ASCII
whitespace characters (the inputs of interest contain no other digit or
whitespace code points).
-/

namespace LineReminder

/-- Calendar timestamp at minute precision, as produced by Python
`datetime(year, month, day, hour, minute)`. -/
structure DateTime where
  year : Nat
  month : Nat
  day : Nat
  hour : Nat
  minute : Nat
deriving DecidableEq

/-- Python leap-year rule used by `datetime`. -/
def isLeap (y : Nat) : Bool := y % 4 == 0 && (y % 100 != 0 || y % 400 == 0)

/-- Number of days of month `m` of year `y`. -/
def daysInMonth (y m : Nat) : Nat :=
  if m = 2 then (if isLeap y then 29 else 28)
  else if m = 4 ∨ m = 6 ∨ m = 9 ∨ m = 11 then 30
  else 31

/-- Constructor `datetime(y, m, d, h, mi)`: `none` models the
`ValueError` that the source catches (range checks of CPython
`datetime`). -/
def mkDatetime (y m d h mi : Nat) : Option DateTime :=
  if 1 ≤ y ∧ y ≤ 9999 ∧ 1 ≤ m ∧ m ≤ 12 ∧ 1 ≤ d ∧ d ≤ daysInMonth y m ∧ h ≤ 23 ∧ mi ≤ 59
  then some ⟨y, m, d, h, mi⟩ else none

/-- Days of the proleptic Gregorian calendar before year `y`
(as in `datetime.toordinal`). -/
def daysBeforeYear (y : Nat) : Nat :=
  let p := y - 1
  p * 365 + p / 4 - p / 100 + p / 400

/-- Days of year `y` before month `m`. -/
def daysBeforeMonth (y m : Nat) : Nat :=
  (List.range (m - 1)).foldl (fun acc i => acc + daysInMonth y (i + 1)) 0

/-- Minutes on the absolute timeline; `datetime` comparison and
`timedelta` arithmetic of the source act on this timeline. -/
def DateTime.toMin (dt : DateTime) : Nat :=
  (daysBeforeYear dt.year + daysBeforeMonth dt.year dt.month + (dt.day - 1)) * 1440
    + dt.hour * 60 + dt.minute

/-- Models `dt.timestamp()` of the source (fixed reference timezone):
seconds on the same absolute timeline. -/
def timestampSec (dt : DateTime) : Nat := dt.toMin * 60

/-- Python `\d` (ASCII range). -/
def isDigitB (c : Char) : Bool := '0' ≤ c && c ≤ '9'

def digitVal (c : Char) : Nat := c.toNat - 48

/-- Python `\s` (ASCII range). -/
def isSpaceB (c : Char) : Bool :=
  c == ' ' || c == '\t' || c == '\n' || c == '\r' || c == '\x0b' || c == '\x0c'

/-- Python character class of a slash or a dash. -/
def isSepB (c : Char) : Bool := c == '/' || c == '-'

/-- Greedy `\d{1,2}` followed by the literal `ch`, at the current
position: first try two digits then the literal, else backtrack to one
digit then the literal.  Returns the group value and the rest. -/
def num12Lit (ch : Char) (l : List Char) : Option (Nat × List Char) :=
  match l with
  | [] => none
  | d1 :: rest =>
    if isDigitB d1 then
      (match rest with
       | d2 :: c3 :: rest3 =>
         if isDigitB d2 ∧ c3 = ch then some (10 * digitVal d1 + digitVal d2, rest3) else none
       | _ => none)
      <|>
      (match rest with
       | c2 :: rest2 => if c2 = ch then some (digitVal d1, rest2) else none
       | [] => none)
    else none

/-- Greedy `\d{1,2}` followed by a slash-or-dash separator, with the
same backtracking. -/
def num12Sep (l : List Char) : Option (Nat × List Char) :=
  match l with
  | [] => none
  | d1 :: rest =>
    if isDigitB d1 then
      (match rest with
       | d2 :: c3 :: rest3 =>
         if isDigitB d2 ∧ isSepB c3 then some (10 * digitVal d1 + digitVal d2, rest3) else none
       | _ => none)
      <|>
      (match rest with
       | c2 :: rest2 => if isSepB c2 then some (digitVal d1, rest2) else none
       | [] => none)
    else none

/-- Exactly `\d{2}`. -/
def min2 (l : List Char) : Option (Nat × List Char) :=
  match l with
  | m1 :: m2 :: r => if isDigitB m1 ∧ isDigitB m2 then some (10 * digitVal m1 + digitVal m2, r) else none
  | _ => none

/-- The common tail `\s*(\d{1,2}):(\d{2})` of the three date patterns.
`\s*` is greedy and `\s`/`\d` are disjoint, so plain `dropWhile` is the
exact backtracking semantics. -/
def timeAt (l : List Char) : Option (Nat × Nat × List Char) :=
  match num12Lit ':' (l.dropWhile isSpaceB) with
  | none => none
  | some (h, r1) =>
    match min2 r1 with
    | none => none
    | some (mi, r2) => some (h, mi, r2)

/-- Pattern 1 of the source, `(\d{1,2})月(\d{1,2})日\s*(\d{1,2}):(\d{2})`,
anchored at the current position.  Returns month, day, hour, minute and
the rest after the match. -/
def matchP1At (l : List Char) : Option (Nat × Nat × Nat × Nat × List Char) :=
  match num12Lit '月' l with
  | none => none
  | some (mo, r1) =>
    match num12Lit '日' r1 with
    | none => none
    | some (da, r2) =>
      match timeAt r2 with
      | none => none
      | some (h, mi, r3) => some (mo, da, h, mi, r3)

/-- Pattern 2 of the source: `\d{1,2}`, separator, `\d{1,2}`, separator,
`\s*(\d{1,2}):(\d{2})`, where each separator is a slash or a dash;
anchored at the current position. -/
def matchP2At (l : List Char) : Option (Nat × Nat × Nat × Nat × List Char) :=
  match num12Sep l with
  | none => none
  | some (mo, r1) =>
    match num12Sep r1 with
    | none => none
    | some (da, r2) =>
      match timeAt r2 with
      | none => none
      | some (h, mi, r3) => some (mo, da, h, mi, r3)

/-- Pattern 3 of the source, `(\d{4})年(\d{1,2})月(\d{1,2})日\s*(\d{1,2}):(\d{2})`,
anchored at the current position; its tail after `年` is exactly
pattern 1. -/
def matchP3At (l : List Char) : Option (Nat × Nat × Nat × Nat × Nat × List Char) :=
  match l with
  | y1 :: y2 :: y3 :: y4 :: c :: r =>
    if isDigitB y1 ∧ isDigitB y2 ∧ isDigitB y3 ∧ isDigitB y4 ∧ c = '年' then
      match matchP1At r with
      | some (mo, da, h, mi, r3) =>
        some (1000 * digitVal y1 + 100 * digitVal y2 + 10 * digitVal y3 + digitVal y4,
              mo, da, h, mi, r3)
      | none => none
    else none
  | _ => none

/-- Leftmost `re.search` for pattern 1. -/
def searchP1 : List Char → Option (Nat × Nat × Nat × Nat × List Char)
  | [] => none
  | x :: t =>
    match matchP1At (x :: t) with
    | some g => some g
    | none => searchP1 t

/-- Leftmost `re.search` for pattern 2. -/
def searchP2 : List Char → Option (Nat × Nat × Nat × Nat × List Char)
  | [] => none
  | x :: t =>
    match matchP2At (x :: t) with
    | some g => some g
    | none => searchP2 t

/-- Leftmost `re.search` for pattern 3. -/
def searchP3 : List Char → Option (Nat × Nat × Nat × Nat × Nat × List Char)
  | [] => none
  | x :: t =>
    match matchP3At (x :: t) with
    | some g => some g
    | none => searchP3 t

/-- The pattern loop of `parse_reminder_text`: the patterns are tried in
source order, each by a full `re.search` over the text; the first
pattern that matches anywhere wins.  `none` in the first component
means a four-group (year-less) match. -/
def firstMatch (t : List Char) : Option (Option Nat × Nat × Nat × Nat × Nat) :=
  match searchP1 t with
  | some (mo, da, h, mi, _) => some (none, mo, da, h, mi)
  | none =>
    match searchP2 t with
    | some (mo, da, h, mi, _) => some (none, mo, da, h, mi)
    | none =>
      match searchP3 t with
      | some (y, mo, da, h, mi, _) => some (some y, mo, da, h, mi)
      | none => none

/-- Alternation `(提前|提早|前)` at the current position, in source
order. -/
def matchQualAt (l : List Char) : Option (List Char) :=
  match l with
  | '提' :: '前' :: r => some r
  | '提' :: '早' :: r => some r
  | '前' :: r => some r
  | _ => none

/-- Digit run folded to its integer value (`int` of group 2). -/
def digitsToNat (ds : List Char) : Nat := ds.foldl (fun a c => 10 * a + digitVal c) 0

/-- The lead-time pattern `(提前|提早|前)(\d+)(分鐘|分|min)` at the
current position.  `\d+` is greedy and no unit alternative starts with
a digit, so the digit run never backtracks. -/
def matchLeadAt (l : List Char) : Option (Nat × List Char) :=
  match matchQualAt l with
  | none => none
  | some r =>
    let ds := r.takeWhile isDigitB
    let r2 := r.dropWhile isDigitB
    if ds = [] then none
    else
      match r2 with
      | '分' :: '鐘' :: r3 => some (digitsToNat ds, r3)
      | '分' :: r3 => some (digitsToNat ds, r3)
      | 'm' :: 'i' :: 'n' :: r3 => some (digitsToNat ds, r3)
      | _ => none

/-- Leftmost `re.search` for the lead-time pattern. -/
def searchLead : List Char → Option Nat
  | [] => none
  | x :: t =>
    match matchLeadAt (x :: t) with
    | some (n, _) => some n
    | none => searchLead t

/-- Alternative `提前\d+分鐘` of the cleanup pattern (only this lead
form appears there), at the current position. -/
def matchAdvAt (l : List Char) : Option (List Char) :=
  match l with
  | '提' :: '前' :: r =>
    let ds := r.takeWhile isDigitB
    let r2 := r.dropWhile isDigitB
    if ds = [] then none
    else
      match r2 with
      | '分' :: '鐘' :: r3 => some r3
      | _ => none
  | _ => none

/-- Alternatives `提醒我|提醒` of the cleanup pattern, in source
order. -/
def matchRemindAt (l : List Char) : Option (List Char) :=
  match l with
  | '提' :: '醒' :: '我' :: r => some r
  | '提' :: '醒' :: r => some r
  | _ => none

/-- The cleanup pattern of the `re.sub` call,
`\d{1,2}月\d{1,2}日\s*\d{1,2}:\d{2}|提前\d+分鐘|提醒我|提醒`, at the
current position (alternatives in source order). -/
def matchCleanAt (l : List Char) : Option (List Char) :=
  match matchP1At l with
  | some (_, _, _, _, r) => some r
  | none =>
    match matchAdvAt l with
    | some r => some r
    | none => matchRemindAt l

/-- One left-to-right pass deleting leftmost non-overlapping matches
(`re.sub(pattern, '', text)`).  Every alternative consumes at least one
character, so `l.length` fuel always suffices. -/
def cleanSubAux : Nat → List Char → List Char
  | 0, l => l
  | _ + 1, [] => []
  | fuel + 1, x :: t =>
    match matchCleanAt (x :: t) with
    | some r => cleanSubAux fuel r
    | none => x :: cleanSubAux fuel t

def cleanSub (l : List Char) : List Char := cleanSubAux l.length l

/-- Python `str.strip()` (ASCII whitespace model). -/
def trimL (l : List Char) : List Char :=
  ((l.dropWhile isSpaceB).reverse.dropWhile isSpaceB).reverse

/-- Year resolution of `parse_reminder_text`: an explicit year is used
as given; otherwise the current year, incremented when the parsed
`(month, day)` pair is lexicographically before today's. -/
def resolveYear (now : DateTime) (yo : Option Nat) (mo da : Nat) : Nat :=
  match yo with
  | some y => y
  | none =>
    if mo < now.month ∨ (mo = now.month ∧ da < now.day) then now.year + 1 else now.year

/-- Function `parse_reminder_text(text)` of the source, with the
implicit `datetime.now()` passed explicitly.  `none` models the
`(None, None, 0)` returns (no pattern matched, or `datetime` raised). -/
def parse_reminder_text (now : DateTime) (text : List Char) :
    Option (DateTime × List Char × Nat) :=
  match firstMatch text with
  | none => none
  | some (yo, mo, da, h, mi) =>
    match mkDatetime (resolveYear now yo mo da) mo da h mi with
    | none => none
    | some dt =>
      some (dt, trimL (cleanSub text),
            match searchLead text with | some n => n | none => 15)

/-- One left-to-right pass of the alternation of the three date
patterns and the lead-time pattern, in their source priority order.
This definition follows the spec's words for the label (§3, §4.2
step 5: every substring matched by the date/time patterns and the
lead-time pattern is removed); it is not how the source cleans the
label, and is used only to compare the source against the spec. -/
def matchSpecAt (l : List Char) : Option (List Char) :=
  match matchP1At l with
  | some (_, _, _, _, r) => some r
  | none =>
    match matchP2At l with
    | some (_, _, _, _, r) => some r
    | none =>
      match matchP3At l with
      | some (_, _, _, _, _, r) => some r
      | none =>
        match matchLeadAt l with
        | some (_, r) => some r
        | none => none

/-- Removal pass for `matchSpecAt`, fuelled like `cleanSubAux`. -/
def specSubAux : Nat → List Char → List Char
  | 0, l => l
  | _ + 1, [] => []
  | fuel + 1, x :: t =>
    match matchSpecAt (x :: t) with
    | some r => specSubAux fuel r
    | none => x :: specSubAux fuel t

/-- Label as the spec words describe it: all date/time and lead-time
substrings removed, then trimmed. -/
def specLabel (l : List Char) : List Char := trimL (specSubAux l.length l)

/-! ## Job store and message handling (`handle_message`, scheduler calls) -/

/-- A job of the apscheduler `MemoryJobStore` as the source creates it:
`id`, `run_date` (as minutes on the absolute timeline) and the `args`
list `[user_id, content, dt.strftime("%m/%d %H:%M"), advance_minutes]`. -/
structure Job where
  id : List Char
  runMin : Int
  owner : List Char
  content : List Char
  timeText : List Char
  advance : Nat
deriving DecidableEq

/-- A value of the module-level `user_reminders` dict. -/
structure URec where
  owner : List Char
  content : List Char
  timeText : List Char
  advance : Nat
deriving DecidableEq

/-- The mutable state the handler touches: the scheduler's job store
and the module-level `user_reminders` dict (an insertion-ordered
association list, as a Python dict is). -/
structure Store where
  jobs : List Job
  userReminders : List (List Char × URec)
deriving DecidableEq

/-- Replies sent by `handle_message`, one constructor per distinct
reply site of the source; `error` is the generic reply of the blanket
`except` handler. -/
inductive Reply where
  | listedEmpty
  | listed (items : List Job)
  | cleared (n : Nat)
  | formatHelp
  | pastTime
  | error
  | scheduled (dt : DateTime) (content : List Char) (advance : Nat)
deriving DecidableEq

/-- Python `str.lower()` restricted to ASCII letters (no other cased
code points occur in the command comparisons). -/
def lowerChar (c : Char) : Char :=
  if c = 'A' then 'a' else if c = 'B' then 'b' else if c = 'C' then 'c'
  else if c = 'D' then 'd' else if c = 'E' then 'e' else if c = 'F' then 'f'
  else if c = 'G' then 'g' else if c = 'H' then 'h' else if c = 'I' then 'i'
  else if c = 'J' then 'j' else if c = 'K' then 'k' else if c = 'L' then 'l'
  else if c = 'M' then 'm' else if c = 'N' then 'n' else if c = 'O' then 'o'
  else if c = 'P' then 'p' else if c = 'Q' then 'q' else if c = 'R' then 'r'
  else if c = 'S' then 's' else if c = 'T' then 't' else if c = 'U' then 'u'
  else if c = 'V' then 'v' else if c = 'W' then 'w' else if c = 'X' then 'x'
  else if c = 'Y' then 'y' else if c = 'Z' then 'z' else c

def lowerL (l : List Char) : List Char := l.map lowerChar

/-- The list-command strings of the source. -/
def listCmds : List (List Char) := ["查看提醒".toList, "我的提醒".toList, "list".toList]

/-- The clear-command strings of the source. -/
def clearCmds : List (List Char) := ["清除所有提醒".toList, "delete all".toList]

/-- The job-id prefix `f"reminder_{user_id}_"` used by the list and
clear branches. -/
def keyPre (uid : List Char) : List Char := "reminder_".toList ++ uid ++ ['_']

/-- Zero padding of `dt.strftime("%m/%d %H:%M")` fields. -/
def pad2 (n : Nat) : List Char := if n < 10 then '0' :: Nat.toDigits 10 n else Nat.toDigits 10 n

def fmtTime (dt : DateTime) : List Char :=
  pad2 dt.month ++ '/' :: pad2 dt.day ++ ' ' :: pad2 dt.hour ++ ':' :: pad2 dt.minute

/-- Job id `f"reminder_{user_id}_{dt.timestamp()}"`; the float renders
as the integral seconds followed by `.0`. -/
def jobIdOf (uid : List Char) (dt : DateTime) : List Char :=
  "reminder_".toList ++ uid ++ '_' :: (Nat.toDigits 10 (timestampSec dt) ++ ".0".toList)

/-- Insertion `scheduler.add_job(..., id=job_id, replace_existing=True)`:
replace in place when the id exists, else append. -/
def putJob (j : Job) (js : List Job) : List Job :=
  if js.any (fun x => x.id == j.id) then js.map (fun x => if x.id == j.id then j else x)
  else js ++ [j]

/-- Assignment into the `user_reminders` dict: Python dict assignment
keeps insertion order and overwrites an existing key in place. -/
def putURec (k : List Char) (v : URec) (m : List (List Char × URec)) :
    List (List Char × URec) :=
  if m.any (fun p => p.1 == k) then m.map (fun p => if p.1 == k then (k, v) else p)
  else m ++ [(k, v)]

/-- The parse-and-schedule tail of `handle_message` (everything after
the two command checks).  After the past-time check the source computes
`reminder_time = dt - timedelta(minutes=advance_minutes)`; when the
result would precede `datetime.min` — minute 0 of the timeline, so
exactly when `dt.toMin - advance` is negative (for a constructible `dt`
this also covers the even larger leads on which `timedelta` itself
overflows) — CPython raises `OverflowError`, the blanket `except`
sends the generic error reply, and neither `user_reminders` nor the
scheduler is touched. -/
def submitReminder (now : DateTime) (uid msg : List Char) (s : Store) : Reply × Store :=
  match parse_reminder_text now msg with
  | none => (Reply.formatHelp, s)
  | some (dt, content, advance) =>
    if content = [] then (Reply.formatHelp, s)
    else if dt.toMin ≤ now.toMin then (Reply.pastTime, s)
    else if (dt.toMin : Int) - (advance : Int) < 0 then (Reply.error, s)
    else
      (Reply.scheduled dt content advance,
       { jobs := putJob ⟨jobIdOf uid dt, (dt.toMin : Int) - (advance : Int), uid, content,
           fmtTime dt, advance⟩ s.jobs,
         userReminders := putURec (jobIdOf uid dt) ⟨uid, content, fmtTime dt, advance⟩
           s.userReminders })

/-- Handler `handle_message` of the source, over the explicit state.
The incoming text is stripped; the two management commands are checked
on its lowering; otherwise the message is parsed and scheduled. -/
def handle_message (now : DateTime) (uid rawText : List Char) (s : Store) : Reply × Store :=
  if lowerL (trimL rawText) ∈ listCmds then
    (if s.jobs.filter (fun j => (keyPre uid).isPrefixOf j.id) = [] then Reply.listedEmpty
     else Reply.listed (s.jobs.filter (fun j => (keyPre uid).isPrefixOf j.id)), s)
  else if lowerL (trimL rawText) ∈ clearCmds then
    (Reply.cleared (s.jobs.filter (fun j => (keyPre uid).isPrefixOf j.id)).length,
     { s with jobs := s.jobs.filter (fun j => ¬ (keyPre uid).isPrefixOf j.id) })
  else submitReminder now uid (trimL rawText) s

/-- Firing of a one-shot job: apscheduler removes it from the store;
`send_reminder` itself reads only the captured `args` and touches no
state of the core. -/
def fireJob (jid : List Char) (s : Store) : Store :=
  { s with jobs := s.jobs.filter (fun j => ¬ j.id = jid) }

/-- Keys of the `user_reminders` dict. -/
def urKeys (m : List (List Char × URec)) : List (List Char) := m.map Prod.fst

/-! ## Supporting lemmas -/

theorem map_congr_mem {α β : Type} {f g : α → β} {l : List α} (h : ∀ a ∈ l, f a = g a) :
    l.map f = l.map g := by
  induction l with
  | nil => rfl
  | cons x t ih =>
    simp only [List.map_cons]
    rw [h x (by simp), ih (fun a ha => h a (by simp [ha]))]

theorem num12Lit_mem {ch : Char} {l : List Char} {v : Nat × List Char}
    (h : num12Lit ch l = some v) : ch ∈ l := by
  unfold num12Lit at h
  split at h
  · exact absurd h (by simp)
  · rename_i d1 rest
    by_cases hd : isDigitB d1
    · rw [if_pos hd, Option.orElse_eq_some] at h
      rcases h with h | ⟨-, h⟩
      · split at h
        · rename_i d2 c3 rest3
          split at h
          · rename_i hc
            rcases hc with ⟨-, rfl⟩
            simp
          · exact absurd h (by simp)
        · exact absurd h (by simp)
      · split at h
        · rename_i c2 rest2
          split at h
          · rename_i hc
            subst hc
            simp
          · exact absurd h (by simp)
        · exact absurd h (by simp)
    · rw [if_neg hd] at h
      exact absurd h (by simp)

theorem num12Sep_mem {l : List Char} {v : Nat × List Char}
    (h : num12Sep l = some v) : '/' ∈ l ∨ '-' ∈ l := by
  unfold num12Sep at h
  split at h
  · exact absurd h (by simp)
  · rename_i d1 rest
    by_cases hd : isDigitB d1
    · rw [if_pos hd, Option.orElse_eq_some] at h
      rcases h with h | ⟨-, h⟩
      · split at h
        · rename_i d2 c3 rest3
          split at h
          · rename_i hc
            rcases hc with ⟨-, hsep⟩
            simp only [isSepB, Bool.or_eq_true, beq_iff_eq] at hsep
            rcases hsep with rfl | rfl
            · exact Or.inl (by simp)
            · exact Or.inr (by simp)
          · exact absurd h (by simp)
        · exact absurd h (by simp)
      · split at h
        · rename_i c2 rest2
          split at h
          · rename_i hsep
            simp only [isSepB, Bool.or_eq_true, beq_iff_eq] at hsep
            rcases hsep with rfl | rfl
            · exact Or.inl (by simp)
            · exact Or.inr (by simp)
          · exact absurd h (by simp)
        · exact absurd h (by simp)
    · rw [if_neg hd] at h
      exact absurd h (by simp)

theorem matchP1At_mem {l : List Char} {v : Nat × Nat × Nat × Nat × List Char}
    (h : matchP1At l = some v) : '月' ∈ l := by
  unfold matchP1At at h
  cases h1 : num12Lit '月' l with
  | none => rw [h1] at h; exact absurd h (by simp)
  | some p => exact num12Lit_mem h1

theorem matchP2At_mem {l : List Char} {v : Nat × Nat × Nat × Nat × List Char}
    (h : matchP2At l = some v) : '/' ∈ l ∨ '-' ∈ l := by
  unfold matchP2At at h
  cases h1 : num12Sep l with
  | none => rw [h1] at h; exact absurd h (by simp)
  | some p => exact num12Sep_mem h1

theorem matchP3At_mem {l : List Char} {v : Nat × Nat × Nat × Nat × Nat × List Char}
    (h : matchP3At l = some v) : '年' ∈ l := by
  unfold matchP3At at h
  split at h
  · rename_i y1 y2 y3 y4 c r
    split at h
    · rename_i hc
      obtain ⟨-, -, -, -, rfl⟩ := hc
      simp
    · exact absurd h (by simp)
  · exact absurd h (by simp)

theorem searchP1_mem {l : List Char} {v : Nat × Nat × Nat × Nat × List Char}
    (h : searchP1 l = some v) : '月' ∈ l := by
  induction l with
  | nil => simp [searchP1] at h
  | cons x t ih =>
    rw [searchP1] at h
    cases h1 : matchP1At (x :: t) with
    | some g => exact matchP1At_mem h1
    | none => rw [h1] at h; exact List.mem_cons_of_mem _ (ih h)

theorem searchP2_mem {l : List Char} {v : Nat × Nat × Nat × Nat × List Char}
    (h : searchP2 l = some v) : '/' ∈ l ∨ '-' ∈ l := by
  induction l with
  | nil => simp [searchP2] at h
  | cons x t ih =>
    rw [searchP2] at h
    cases h1 : matchP2At (x :: t) with
    | some g => exact matchP2At_mem h1
    | none =>
      rw [h1] at h
      exact (ih h).imp (List.mem_cons_of_mem _) (List.mem_cons_of_mem _)

theorem searchP3_mem {l : List Char} {v : Nat × Nat × Nat × Nat × Nat × List Char}
    (h : searchP3 l = some v) : '年' ∈ l := by
  induction l with
  | nil => simp [searchP3] at h
  | cons x t ih =>
    rw [searchP3] at h
    cases h1 : matchP3At (x :: t) with
    | some g => exact matchP3At_mem h1
    | none => rw [h1] at h; exact List.mem_cons_of_mem _ (ih h)

theorem firstMatch_mark {t : List Char} {g : Option Nat × Nat × Nat × Nat × Nat}
    (h : firstMatch t = some g) : '月' ∈ t ∨ '/' ∈ t ∨ '-' ∈ t ∨ '年' ∈ t := by
  unfold firstMatch at h
  cases h1 : searchP1 t with
  | some p => exact Or.inl (searchP1_mem h1)
  | none =>
    rw [h1] at h
    cases h2 : searchP2 t with
    | some p =>
      exact (searchP2_mem h2).elim (fun m => Or.inr (Or.inl m))
        (fun m => Or.inr (Or.inr (Or.inl m)))
    | none =>
      rw [h2] at h
      cases h3 : searchP3 t with
      | some p => exact Or.inr (Or.inr (Or.inr (searchP3_mem h3)))
      | none => rw [h3] at h; exact absurd h (by simp)

theorem cmd_no_firstMatch {msg : List Char}
    (h : lowerL msg ∈ listCmds ∨ lowerL msg ∈ clearCmds) : firstMatch msg = none := by
  cases hf : firstMatch msg with
  | none => rfl
  | some g =>
    exfalso
    have hm := firstMatch_mark hf
    have key : ∀ c, c ∈ msg → lowerChar c ∈ lowerL msg :=
      fun c hc => List.mem_map_of_mem _ hc
    rcases h with h | h
    · simp only [listCmds, List.mem_cons, List.not_mem_nil, or_false] at h
      rcases h with h | h | h <;>
        rcases hm with hm | hm | hm | hm <;>
          (have hx := key _ hm; rw [h] at hx; revert hx; decide)
    · simp only [clearCmds, List.mem_cons, List.not_mem_nil, or_false] at h
      rcases h with h | h <;>
        rcases hm with hm | hm | hm | hm <;>
          (have hx := key _ hm; rw [h] at hx; revert hx; decide)

theorem parse_some_firstMatch {now : DateTime} {t : List Char}
    {r : DateTime × List Char × Nat} (h : parse_reminder_text now t = some r) :
    ∃ g, firstMatch t = some g := by
  unfold parse_reminder_text at h
  cases hf : firstMatch t with
  | none => rw [hf] at h; simp at h
  | some g => exact ⟨g, rfl⟩

theorem handle_message_submit {now : DateTime} {uid rawText : List Char} {s : Store}
    {r : DateTime × List Char × Nat}
    (h : parse_reminder_text now (trimL rawText) = some r) :
    handle_message now uid rawText s = submitReminder now uid (trimL rawText) s := by
  obtain ⟨g, hg⟩ := parse_some_firstMatch h
  have h1 : lowerL (trimL rawText) ∉ listCmds := by
    intro hmem
    rw [cmd_no_firstMatch (Or.inl hmem)] at hg
    exact absurd hg (by simp)
  have h2 : lowerL (trimL rawText) ∉ clearCmds := by
    intro hmem
    rw [cmd_no_firstMatch (Or.inr hmem)] at hg
    exact absurd hg (by simp)
  unfold handle_message
  simp only [if_neg h1, if_neg h2]

theorem parse_inv {now : DateTime} {t : List Char} {dt : DateTime} {c : List Char} {a : Nat}
    (hp : parse_reminder_text now t = some (dt, c, a)) :
    ∃ yo mo da h mi, firstMatch t = some (yo, mo, da, h, mi)
      ∧ mkDatetime (resolveYear now yo mo da) mo da h mi = some dt
      ∧ c = trimL (cleanSub t)
      ∧ a = (match searchLead t with | some n => n | none => 15) := by
  unfold parse_reminder_text at hp
  split at hp
  · exact absurd hp (by simp)
  · rename_i yo mo da h mi heq
    split at hp
    · exact absurd hp (by simp)
    · rename_i dt' heq2
      simp only [Option.some.injEq, Prod.mk.injEq] at hp
      obtain ⟨h1, h2, h3⟩ := hp
      subst h1
      exact ⟨yo, mo, da, h, mi, heq, heq2, h2.symm, h3.symm⟩

theorem mkDatetime_eq {y m d h mi : Nat} {dt : DateTime}
    (hd : mkDatetime y m d h mi = some dt) : dt = ⟨y, m, d, h, mi⟩ := by
  unfold mkDatetime at hd
  split at hd
  · exact (Option.some.inj hd).symm
  · exact absurd hd (by simp)

theorem putJob_mem (j : Job) (js : List Job) : j ∈ putJob j js := by
  unfold putJob
  by_cases h : js.any (fun x => x.id == j.id)
  · rw [if_pos h, List.mem_map]
    rw [List.any_eq_true] at h
    obtain ⟨x, hx, hb⟩ := h
    exact ⟨x, hx, by rw [if_pos hb]⟩
  · rw [if_neg h]
    exact List.mem_append_right _ (List.mem_cons_self _ _)

theorem putJob_idem (j : Job) (js : List Job) : putJob j (putJob j js) = putJob j js := by
  unfold putJob
  by_cases h : js.any (fun x => x.id == j.id)
  · rw [if_pos h]
    have hall : (js.map (fun x => if x.id == j.id then j else x)).any
        (fun x => x.id == j.id) = true := by
      rw [List.any_eq_true] at h ⊢
      obtain ⟨x, hx, hb⟩ := h
      refine ⟨j, ?_, by simp⟩
      rw [List.mem_map]
      exact ⟨x, hx, by rw [if_pos hb]⟩
    rw [if_pos hall, List.map_map]
    apply map_congr_mem
    intro x _
    by_cases hb : x.id == j.id
    · simp only [Function.comp_apply, if_pos hb]
      simp
    · simp only [Function.comp_apply, if_neg hb]
  · rw [if_neg h]
    have hall : (js ++ [j]).any (fun x => x.id == j.id) = true := by
      rw [List.any_append]
      simp
    rw [if_pos hall, List.map_append]
    have h1 : js.map (fun x => if x.id == j.id then j else x) = js := by
      calc js.map (fun x => if x.id == j.id then j else x)
          = js.map id := by
            apply map_congr_mem
            intro x hx
            have hb : ¬ (x.id == j.id) = true := by
              rw [List.any_eq_true] at h
              exact fun hb => h ⟨x, hx, hb⟩
            rw [if_neg hb]
            rfl
        _ = js := List.map_id js
    rw [h1]
    have h2 : [j].map (fun x => if x.id == j.id then j else x) = [j] := by simp
    rw [h2]

theorem putURec_mem_key (k : List Char) (v : URec) (m : List (List Char × URec)) :
    k ∈ urKeys (putURec k v m) := by
  unfold putURec urKeys
  by_cases h : m.any (fun p => p.1 == k)
  · rw [if_pos h, List.mem_map]
    rw [List.any_eq_true] at h
    obtain ⟨p, hp, hb⟩ := h
    refine ⟨(k, v), ?_, rfl⟩
    rw [List.mem_map]
    exact ⟨p, hp, by rw [if_pos hb]⟩
  · rw [if_neg h]
    have h2 : (m ++ [(k, v)]).map Prod.fst = m.map Prod.fst ++ [k] := by
      rw [List.map_append]; rfl
    rw [h2]
    exact List.mem_append_right _ (List.mem_cons_self _ _)

theorem putURec_idem (k : List Char) (v : URec) (m : List (List Char × URec)) :
    putURec k v (putURec k v m) = putURec k v m := by
  unfold putURec
  by_cases h : m.any (fun p => p.1 == k)
  · rw [if_pos h]
    have hall : (m.map (fun p => if p.1 == k then (k, v) else p)).any
        (fun p => p.1 == k) = true := by
      rw [List.any_eq_true] at h ⊢
      obtain ⟨p, hp, hb⟩ := h
      refine ⟨(k, v), ?_, by simp⟩
      rw [List.mem_map]
      exact ⟨p, hp, by rw [if_pos hb]⟩
    rw [if_pos hall, List.map_map]
    apply map_congr_mem
    intro p _
    by_cases hb : p.1 == k
    · simp only [Function.comp_apply, if_pos hb]
      simp
    · simp only [Function.comp_apply, if_neg hb]
  · rw [if_neg h]
    have hall : (m ++ [(k, v)]).any (fun p => p.1 == k) = true := by
      rw [List.any_append]
      simp
    rw [if_pos hall, List.map_append]
    have h1 : m.map (fun p => if p.1 == k then (k, v) else p) = m := by
      calc m.map (fun p => if p.1 == k then (k, v) else p)
          = m.map id := by
            apply map_congr_mem
            intro p hp
            have hb : ¬ (p.1 == k) = true := by
              rw [List.any_eq_true] at h
              exact fun hb => h ⟨p, hp, hb⟩
            rw [if_neg hb]
            rfl
        _ = m := List.map_id m
    rw [h1]
    have h2 : [(k, v)].map (fun p => if p.1 == k then (k, v) else p) = [(k, v)] := by simp
    rw [h2]

theorem urKeys_subset_putURec (k : List Char) (v : URec) (m : List (List Char × URec)) :
    urKeys m ⊆ urKeys (putURec k v m) := by
  unfold putURec urKeys
  by_cases h : m.any (fun p => p.1 == k)
  · rw [if_pos h, List.map_map]
    have h1 : m.map (Prod.fst ∘ fun p => if p.1 == k then (k, v) else p) = m.map Prod.fst := by
      apply map_congr_mem
      intro p _
      by_cases hb : p.1 == k
      · simp only [Function.comp_apply, if_pos hb]
        exact (eq_of_beq hb).symm
      · simp only [Function.comp_apply, if_neg hb]
    rw [h1]
    exact fun a ha => ha
  · rw [if_neg h, List.map_append]
    exact List.subset_append_left _ _

theorem handle_message_list {now : DateTime} {uid rawText : List Char} (s : Store)
    (h : lowerL (trimL rawText) ∈ listCmds) :
    handle_message now uid rawText s
      = (if s.jobs.filter (fun j => (keyPre uid).isPrefixOf j.id) = [] then Reply.listedEmpty
         else Reply.listed (s.jobs.filter (fun j => (keyPre uid).isPrefixOf j.id)), s) := by
  unfold handle_message
  rw [if_pos h]

theorem handle_message_clear {now : DateTime} {uid rawText : List Char} (s : Store)
    (h1 : lowerL (trimL rawText) ∉ listCmds) (h2 : lowerL (trimL rawText) ∈ clearCmds) :
    handle_message now uid rawText s
      = (Reply.cleared (s.jobs.filter (fun j => (keyPre uid).isPrefixOf j.id)).length,
         { s with jobs := s.jobs.filter (fun j => ¬ (keyPre uid).isPrefixOf j.id) }) := by
  unfold handle_message
  rw [if_neg h1, if_pos h2]

theorem handle_message_other {now : DateTime} {uid rawText : List Char} (s : Store)
    (h1 : lowerL (trimL rawText) ∉ listCmds) (h2 : lowerL (trimL rawText) ∉ clearCmds) :
    handle_message now uid rawText s = submitReminder now uid (trimL rawText) s := by
  unfold handle_message
  rw [if_neg h1, if_neg h2]

theorem submitReminder_none {now : DateTime} {uid msg : List Char} {s : Store}
    (hp : parse_reminder_text now msg = none) :
    submitReminder now uid msg s = (Reply.formatHelp, s) := by
  unfold submitReminder
  rw [hp]

theorem submitReminder_some {now : DateTime} {uid msg : List Char} {s : Store}
    {dt : DateTime} {c : List Char} {a : Nat}
    (hp : parse_reminder_text now msg = some (dt, c, a)) :
    submitReminder now uid msg s
      = if c = [] then (Reply.formatHelp, s)
        else if dt.toMin ≤ now.toMin then (Reply.pastTime, s)
        else if (dt.toMin : Int) - (a : Int) < 0 then (Reply.error, s)
        else (Reply.scheduled dt c a,
              { jobs := putJob ⟨jobIdOf uid dt, (dt.toMin : Int) - (a : Int), uid, c,
                  fmtTime dt, a⟩ s.jobs,
                userReminders := putURec (jobIdOf uid dt) ⟨uid, c, fmtTime dt, a⟩
                  s.userReminders }) := by
  unfold submitReminder
  rw [hp]

/-! ## Claim theorems -/

/-- C1: the claim says an explicit four-digit year in the text is used
verbatim, so the spec example with year 2023 and now = 2024-01-01 must
fail as past time.  In the code the year-less month-day pattern is
searched first and matches inside every explicit-year expression, so
the year branch is unreachable: the example compiles to 2024-06-12
15:30 (the year pattern would have matched 2023) and is scheduled, not
rejected. -/
theorem c1_explicit_year_ignored :
    parse_reminder_text ⟨2024, 1, 1, 0, 0⟩ "2023年6月12日 15:30 開會 提前10分鐘提醒".toList
      = some (⟨2024, 6, 12, 15, 30⟩, "2023年 開會".toList, 10)
    ∧ searchP3 "2023年6月12日 15:30 開會 提前10分鐘提醒".toList
        = some (2023, 6, 12, 15, 30, " 開會 提前10分鐘提醒".toList)
    ∧ ¬ (⟨2024, 6, 12, 15, 30⟩ : DateTime).toMin ≤ (⟨2024, 1, 1, 0, 0⟩ : DateTime).toMin
    ∧ (handle_message ⟨2024, 1, 1, 0, 0⟩ "U1".toList
          "2023年6月12日 15:30 開會 提前10分鐘提醒".toList ⟨[], []⟩).1
        = Reply.scheduled ⟨2024, 6, 12, 15, 30⟩ "2023年 開會".toList 10 :=
  ⟨by decide, rfl, by decide, by decide⟩

/-- C2 counterexample: on an explicit-year text that parses, the code's
label keeps the year fragment, while the claimed label (all date/time
and lead-time substrings removed) does not. -/
theorem c2_label_counterexample :
    parse_reminder_text ⟨2024, 1, 1, 0, 0⟩ "2030年6月12日 15:30 開會".toList
      = some (⟨2024, 6, 12, 15, 30⟩, "2030年 開會".toList, 15)
    ∧ specLabel "2030年6月12日 15:30 開會".toList = "開會".toList
    ∧ "2030年 開會".toList ≠ "開會".toList :=
  ⟨by decide, by decide, by decide⟩

/-- C2 amended: for every successful parse, the label equals the text
with one left-to-right pass of the cleanup pattern (the year-less
month-day date form, the lead form with the single qualifier and unit,
and the two reminder keywords) removed, then trimmed; the slash/dash
and explicit-year date forms and the other lead forms are not
removed. -/
theorem c2_label_amended (now : DateTime) (t : List Char) (dt : DateTime)
    (c : List Char) (a : Nat) (hp : parse_reminder_text now t = some (dt, c, a)) :
    c = trimL (cleanSub t) := by
  obtain ⟨yo, mo, da, h, mi, -, -, hc, -⟩ := parse_inv hp
  exact hc

/-- Witness for c2_label_amended. -/
theorem c2_label_amended_witness :
    "2030年 開會".toList = trimL (cleanSub "2030年6月12日 15:30 開會".toList) :=
  c2_label_amended ⟨2024, 1, 1, 0, 0⟩ "2030年6月12日 15:30 開會".toList
    ⟨2024, 6, 12, 15, 30⟩ "2030年 開會".toList 15 (by decide)

/-- C4 counterexample: the claim makes the qualifier optional, so this
text (a cardinal followed by the minutes unit, no qualifier) should
compile with lead 10; the code's lead pattern requires a qualifier and
the default 15 is used. -/
theorem c4_lead_counterexample :
    searchLead "6月12日 15:30 開會 10分鐘提醒".toList = none
    ∧ parse_reminder_text ⟨2024, 1, 1, 0, 0⟩ "6月12日 15:30 開會 10分鐘提醒".toList
        = some (⟨2024, 6, 12, 15, 30⟩, "開會 10分鐘".toList, 15)
    ∧ (15 : Nat) ≠ 10 :=
  ⟨by decide, by decide, by decide⟩

/-- C4 amended: the lead expression requires one of the qualifiers
before the number; every successful parse returns the integer of the
first qualified lead expression when one exists, else exactly 15. -/
theorem c4_lead_amended (now : DateTime) (t : List Char) (dt : DateTime)
    (c : List Char) (a : Nat) (hp : parse_reminder_text now t = some (dt, c, a)) :
    (∃ n, searchLead t = some n ∧ a = n) ∨ (searchLead t = none ∧ a = 15) := by
  obtain ⟨yo, mo, da, h, mi, -, -, -, ha⟩ := parse_inv hp
  cases hl : searchLead t with
  | some n =>
    refine Or.inl ⟨n, rfl, ?_⟩
    rw [hl] at ha
    exact ha
  | none =>
    refine Or.inr ⟨rfl, ?_⟩
    rw [hl] at ha
    exact ha

/-- Witness for c4_lead_amended. -/
theorem c4_lead_amended_witness :
    (∃ n, searchLead "6月12日 15:30 開會 提前10分鐘提醒".toList = some n ∧ 10 = n)
    ∨ (searchLead "6月12日 15:30 開會 提前10分鐘提醒".toList = none ∧ 10 = 15) :=
  c4_lead_amended ⟨2024, 1, 1, 0, 0⟩ "6月12日 15:30 開會 提前10分鐘提醒".toList
    ⟨2024, 6, 12, 15, 30⟩ "開會".toList 10 (by decide)

/-- C5: for a year-less match, the compiled year is now.year + 1
exactly when (month, day) is lexicographically before
(now.month, now.day), else now.year, and the other components are the
matched ones. -/
theorem c5_year_rollover (now : DateTime) (t : List Char) (mo da h mi : Nat)
    (dt : DateTime) (c : List Char) (a : Nat)
    (hm : firstMatch t = some (none, mo, da, h, mi))
    (hp : parse_reminder_text now t = some (dt, c, a)) :
    dt.year = (if mo < now.month ∨ (mo = now.month ∧ da < now.day)
               then now.year + 1 else now.year)
      ∧ dt.month = mo ∧ dt.day = da ∧ dt.hour = h ∧ dt.minute = mi := by
  obtain ⟨yo', mo', da', h', mi', h1, h2, -, -⟩ := parse_inv hp
  rw [hm] at h1
  simp only [Option.some.injEq, Prod.mk.injEq] at h1
  obtain ⟨e1, e2, e3, e4, e5⟩ := h1
  subst e1; subst e2; subst e3; subst e4; subst e5
  rw [mkDatetime_eq h2]
  exact ⟨rfl, rfl, rfl, rfl, rfl⟩

/-- Witness for c5_year_rollover: month-day 1/2 before now 2024-06-01
rolls to 2025. -/
theorem c5_year_rollover_witness :
    ((⟨2025, 1, 2, 10, 0⟩ : DateTime).year
        = if 1 < (⟨2024, 6, 1, 0, 0⟩ : DateTime).month
            ∨ (1 = (⟨2024, 6, 1, 0, 0⟩ : DateTime).month
                ∧ 2 < (⟨2024, 6, 1, 0, 0⟩ : DateTime).day)
          then (⟨2024, 6, 1, 0, 0⟩ : DateTime).year + 1
          else (⟨2024, 6, 1, 0, 0⟩ : DateTime).year)
      ∧ (⟨2025, 1, 2, 10, 0⟩ : DateTime).month = 1
      ∧ (⟨2025, 1, 2, 10, 0⟩ : DateTime).day = 2
      ∧ (⟨2025, 1, 2, 10, 0⟩ : DateTime).hour = 10
      ∧ (⟨2025, 1, 2, 10, 0⟩ : DateTime).minute = 0 :=
  c5_year_rollover ⟨2024, 6, 1, 0, 0⟩ "1月2日 10:00 聚餐".toList 1 2 10 0
    ⟨2025, 1, 2, 10, 0⟩ "聚餐".toList 15 (by decide) (by decide)

/-- C8 counterexample: a text that matches the date pattern but names
an impossible day (June 31) yields the same failure value as a text
with no timestamp at all, and the handler replies identically: there is
no distinct invalid-calendar-date error. -/
theorem c8_invalid_date_counterexample :
    firstMatch "6月31日 15:30 開會".toList = some (none, 6, 31, 15, 30)
    ∧ parse_reminder_text ⟨2024, 1, 1, 0, 0⟩ "6月31日 15:30 開會".toList = none
    ∧ parse_reminder_text ⟨2024, 1, 1, 0, 0⟩ "開會".toList = none
    ∧ handle_message ⟨2024, 1, 1, 0, 0⟩ "U1".toList "6月31日 15:30 開會".toList ⟨[], []⟩
        = handle_message ⟨2024, 1, 1, 0, 0⟩ "U1".toList "開會".toList ⟨[], []⟩ :=
  ⟨by decide, by decide, by decide, by decide⟩

/-- C8 amended: a syntactic date match whose components are rejected by
the calendar produces the same sentinel as a text with no match — the
parse returns none in both cases. -/
theorem c8_invalid_date_amended (now : DateTime) (t : List Char)
    (yo : Option Nat) (mo da h mi : Nat)
    (hm : firstMatch t = some (yo, mo, da, h, mi))
    (hd : mkDatetime (resolveYear now yo mo da) mo da h mi = none) :
    parse_reminder_text now t = none := by
  cases hr : parse_reminder_text now t with
  | none => rfl
  | some r =>
    exfalso
    obtain ⟨dt, c, a⟩ := r
    obtain ⟨yo', mo', da', h', mi', h1, h2, -, -⟩ := parse_inv hr
    rw [hm] at h1
    simp only [Option.some.injEq, Prod.mk.injEq] at h1
    obtain ⟨e1, e2, e3, e4, e5⟩ := h1
    subst e1; subst e2; subst e3; subst e4; subst e5
    rw [hd] at h2
    exact absurd h2 (by simp)

/-- Witness for c8_invalid_date_amended. -/
theorem c8_invalid_date_amended_witness :
    parse_reminder_text ⟨2024, 1, 1, 0, 0⟩ "6月31日 15:30 開會".toList = none :=
  c8_invalid_date_amended ⟨2024, 1, 1, 0, 0⟩ "6月31日 15:30 開會".toList
    none 6 31 15 30 (by decide) (by decide)

/-- C3 counterexample: a text whose label strips to empty parses
successfully with the empty label, yet the handler treats the
submission as a parse failure (format-help reply) and schedules
nothing, contradicting the claim that such a submission does not fail
as a parse error. -/
theorem c3_empty_label_counterexample :
    parse_reminder_text ⟨2024, 1, 1, 0, 0⟩ "6月12日 15:30".toList
      = some (⟨2024, 6, 12, 15, 30⟩, [], 15)
    ∧ handle_message ⟨2024, 1, 1, 0, 0⟩ "U1".toList "6月12日 15:30".toList ⟨[], []⟩
        = (Reply.formatHelp, ⟨[], []⟩) :=
  ⟨by decide, by decide⟩

/-- C3 amended: the parse function itself passes an empty label
through, but handle_message rejects every submission whose parsed label
is empty with the format-help reply and leaves the state unchanged. -/
theorem c3_empty_label_amended (now : DateTime) (uid rawText : List Char) (s : Store)
    (dt : DateTime) (a : Nat)
    (hp : parse_reminder_text now (trimL rawText) = some (dt, [], a)) :
    handle_message now uid rawText s = (Reply.formatHelp, s) := by
  rw [handle_message_submit hp, submitReminder_some hp, if_pos rfl]

/-- Witness for c3_empty_label_amended. -/
theorem c3_empty_label_amended_witness :
    handle_message ⟨2024, 1, 1, 0, 0⟩ "U1".toList "6月12日 15:30".toList ⟨[], []⟩
      = (Reply.formatHelp, ⟨[], []⟩) :=
  c3_empty_label_amended ⟨2024, 1, 1, 0, 0⟩ "U1".toList "6月12日 15:30".toList ⟨[], []⟩
    ⟨2024, 6, 12, 15, 30⟩ 15 (by decide)

/-- C6 counterexample: the clear branch matches jobs by the id prefix
reminder_{owner}_, so owner "A" clears the job of the different owner
"A_1": after "A_1" schedules one reminder, a clear-all from "A" reports
one removed job and empties the store, though every stored job belonged
to "A_1". -/
theorem c6_clear_counterexample :
    (handle_message ⟨2024, 1, 1, 0, 0⟩ "A_1".toList "6月12日 15:30 開會".toList ⟨[], []⟩).1
      = Reply.scheduled ⟨2024, 6, 12, 15, 30⟩ "開會".toList 15
    ∧ (∀ j ∈ ((handle_message ⟨2024, 1, 1, 0, 0⟩ "A_1".toList "6月12日 15:30 開會".toList
          ⟨[], []⟩).2).jobs, j.owner = "A_1".toList)
    ∧ (handle_message ⟨2024, 1, 1, 0, 0⟩ "A".toList "清除所有提醒".toList
        (handle_message ⟨2024, 1, 1, 0, 0⟩ "A_1".toList "6月12日 15:30 開會".toList
          ⟨[], []⟩).2).1 = Reply.cleared 1
    ∧ ((handle_message ⟨2024, 1, 1, 0, 0⟩ "A".toList "清除所有提醒".toList
        (handle_message ⟨2024, 1, 1, 0, 0⟩ "A_1".toList "6月12日 15:30 開會".toList
          ⟨[], []⟩).2).2).jobs = []
    ∧ "A_1".toList ≠ "A".toList :=
  ⟨by decide, by decide, by decide, by decide, by decide⟩

/-- C6 amended: the clear command removes exactly the jobs whose id
starts with reminder_{owner}_ and reports their count; this coincides
with owner equality only when no other owner's id continues the prefix
(e.g. owners "A" and "A_1" collide). -/
theorem c6_clear_amended (now : DateTime) (uid rawText : List Char) (s : Store)
    (h : lowerL (trimL rawText) ∈ clearCmds) :
    handle_message now uid rawText s
      = (Reply.cleared (s.jobs.filter (fun j => (keyPre uid).isPrefixOf j.id)).length,
         { s with jobs := s.jobs.filter (fun j => ¬ (keyPre uid).isPrefixOf j.id) }) := by
  have h1 : lowerL (trimL rawText) ∉ listCmds := by
    intro hmem
    simp only [clearCmds, List.mem_cons, List.not_mem_nil, or_false] at h
    rcases h with h | h <;> rw [h] at hmem <;> revert hmem <;> decide
  unfold handle_message
  rw [if_neg h1, if_pos h]

/-- Witness for c6_clear_amended: clearing with one own job and one
foreign job stored. -/
theorem c6_clear_amended_witness :
    handle_message ⟨2024, 1, 1, 0, 0⟩ "U1".toList "清除所有提醒".toList
        ⟨[⟨"reminder_U1_9.0".toList, 0, "U1".toList, "x".toList, "t".toList, 5⟩,
          ⟨"reminder_U2_9.0".toList, 0, "U2".toList, "y".toList, "t".toList, 5⟩], []⟩
      = (Reply.cleared
          (([⟨"reminder_U1_9.0".toList, 0, "U1".toList, "x".toList, "t".toList, 5⟩,
             ⟨"reminder_U2_9.0".toList, 0, "U2".toList, "y".toList, "t".toList, 5⟩] :
              List Job).filter
            (fun j => (keyPre "U1".toList).isPrefixOf j.id)).length,
         { jobs := ([⟨"reminder_U1_9.0".toList, 0, "U1".toList, "x".toList, "t".toList, 5⟩,
             ⟨"reminder_U2_9.0".toList, 0, "U2".toList, "y".toList, "t".toList, 5⟩] :
              List Job).filter
            (fun j => ¬ (keyPre "U1".toList).isPrefixOf j.id),
           userReminders := [] }) :=
  c6_clear_amended ⟨2024, 1, 1, 0, 0⟩ "U1".toList "清除所有提醒".toList
    ⟨[⟨"reminder_U1_9.0".toList, 0, "U1".toList, "x".toList, "t".toList, 5⟩,
      ⟨"reminder_U2_9.0".toList, 0, "U2".toList, "y".toList, "t".toList, 5⟩], []⟩
    (by decide)

/-- C7: the job id is the deterministic function jobIdOf of the owner
and the trigger instant, and a second identical submission replaces the
first: the reply and the whole store are unchanged, and the stored job
carries the latest payload. -/
theorem c7_resubmit_replaces (now : DateTime) (uid rawText : List Char) (s : Store)
    (dt : DateTime) (c : List Char) (a : Nat)
    (h : (handle_message now uid rawText s).1 = Reply.scheduled dt c a) :
    handle_message now uid rawText ((handle_message now uid rawText s).2)
        = (Reply.scheduled dt c a, (handle_message now uid rawText s).2)
      ∧ ∃ j ∈ ((handle_message now uid rawText s).2).jobs,
          j.id = jobIdOf uid dt ∧ j.owner = uid ∧ j.content = c ∧ j.advance = a
            ∧ j.runMin = (dt.toMin : Int) - (a : Int) := by
  by_cases h1 : lowerL (trimL rawText) ∈ listCmds
  · exfalso
    unfold handle_message at h
    rw [if_pos h1] at h
    by_cases h2 : s.jobs.filter (fun j => (keyPre uid).isPrefixOf j.id) = []
    · rw [if_pos h2] at h
      exact absurd h (by simp)
    · rw [if_neg h2] at h
      exact absurd h (by simp)
  · by_cases h2 : lowerL (trimL rawText) ∈ clearCmds
    · exfalso
      unfold handle_message at h
      rw [if_neg h1, if_pos h2] at h
      exact absurd h (by simp)
    · have heq : handle_message now uid rawText s
          = submitReminder now uid (trimL rawText) s := by
        unfold handle_message
        rw [if_neg h1, if_neg h2]
      cases hp : parse_reminder_text now (trimL rawText) with
      | none =>
        rw [heq, submitReminder_none hp] at h
        exact absurd h (by simp)
      | some r =>
        obtain ⟨dt', c', a'⟩ := r
        rw [heq, submitReminder_some hp] at h
        by_cases hc : c' = []
        · rw [if_pos hc] at h
          exact absurd h (by simp)
        · rw [if_neg hc] at h
          by_cases hpast : dt'.toMin ≤ now.toMin
          · rw [if_pos hpast] at h
            exact absurd h (by simp)
          · rw [if_neg hpast] at h
            by_cases hov : (dt'.toMin : Int) - (a' : Int) < 0
            · rw [if_pos hov] at h
              exact absurd h (by simp)
            · rw [if_neg hov] at h
              have h' : Reply.scheduled dt' c' a' = Reply.scheduled dt c a := h
              injection h' with e1 e2 e3
              subst e1; subst e2; subst e3
              have hs1 : (handle_message now uid rawText s).2
                  = Store.mk
                      (putJob ⟨jobIdOf uid dt', (dt'.toMin : Int) - (a' : Int), uid, c',
                        fmtTime dt', a'⟩ s.jobs)
                      (putURec (jobIdOf uid dt') ⟨uid, c', fmtTime dt', a'⟩
                        s.userReminders) := by
                rw [heq, submitReminder_some hp, if_neg hc, if_neg hpast, if_neg hov]
              constructor
              · rw [hs1, handle_message_submit hp, submitReminder_some hp,
                  if_neg hc, if_neg hpast, if_neg hov]
                rw [putJob_idem, putURec_idem]
              · rw [hs1]
                exact ⟨_, putJob_mem _ _, rfl, rfl, rfl, rfl, rfl⟩

/-- Witness for c7_resubmit_replaces. -/
theorem c7_resubmit_replaces_witness :
    (handle_message ⟨2024, 1, 1, 0, 0⟩ "U1".toList "6月12日 15:30 開會".toList
        ((handle_message ⟨2024, 1, 1, 0, 0⟩ "U1".toList "6月12日 15:30 開會".toList
          ⟨[], []⟩).2)
        = (Reply.scheduled ⟨2024, 6, 12, 15, 30⟩ "開會".toList 15,
           (handle_message ⟨2024, 1, 1, 0, 0⟩ "U1".toList "6月12日 15:30 開會".toList
             ⟨[], []⟩).2))
      ∧ ∃ j ∈ ((handle_message ⟨2024, 1, 1, 0, 0⟩ "U1".toList "6月12日 15:30 開會".toList
            ⟨[], []⟩).2).jobs,
          j.id = jobIdOf "U1".toList ⟨2024, 6, 12, 15, 30⟩ ∧ j.owner = "U1".toList
            ∧ j.content = "開會".toList ∧ j.advance = 15
            ∧ j.runMin = ((⟨2024, 6, 12, 15, 30⟩ : DateTime).toMin : Int) - (15 : Int) :=
  c7_resubmit_replaces ⟨2024, 1, 1, 0, 0⟩ "U1".toList "6月12日 15:30 開會".toList ⟨[], []⟩
    ⟨2024, 6, 12, 15, 30⟩ "開會".toList 15 (by decide)

/-- C10 counterexample: with lead 2000000000 minutes the trigger is
strictly after now and the computed fire time is far before now, yet
the subtraction overflows past datetime.min, so the blanket handler
replies with the generic error and nothing is scheduled — the
submission is not accepted, refuting the universal claim. -/
theorem c10_past_fire_counterexample :
    parse_reminder_text ⟨2024, 1, 1, 0, 0⟩
        "6月12日 15:30 開會 提前2000000000分鐘提醒".toList
      = some (⟨2024, 6, 12, 15, 30⟩, "開會".toList, 2000000000)
    ∧ ¬ (⟨2024, 6, 12, 15, 30⟩ : DateTime).toMin ≤ (⟨2024, 1, 1, 0, 0⟩ : DateTime).toMin
    ∧ ((⟨2024, 6, 12, 15, 30⟩ : DateTime).toMin : Int) - (2000000000 : Int)
        ≤ ((⟨2024, 1, 1, 0, 0⟩ : DateTime).toMin : Int)
    ∧ handle_message ⟨2024, 1, 1, 0, 0⟩ "U1".toList
        "6月12日 15:30 開會 提前2000000000分鐘提醒".toList ⟨[], []⟩
        = (Reply.error, ⟨[], []⟩) :=
  ⟨by decide, by decide, by decide, by decide⟩

/-- C10 amended: only the trigger instant is validated against now —
the fire time is never compared with now.  A submission whose fire time
(trigger minus lead) is at or before now is accepted and stored with
that past fire time, provided the fire time does not precede
datetime.min (minute 0 of the timeline); when it would, the subtraction
overflows, the blanket handler replies with the generic error, and
nothing is scheduled. -/
theorem c10_past_fire_amended (now : DateTime) (uid rawText : List Char) (s : Store)
    (dt : DateTime) (c : List Char) (a : Nat)
    (hp : parse_reminder_text now (trimL rawText) = some (dt, c, a))
    (hc : ¬ c = [])
    (hfuture : ¬ dt.toMin ≤ now.toMin)
    (hfire : (dt.toMin : Int) - (a : Int) ≤ (now.toMin : Int)) :
    (¬ (dt.toMin : Int) - (a : Int) < 0 →
      (handle_message now uid rawText s).1 = Reply.scheduled dt c a
        ∧ ∃ j ∈ ((handle_message now uid rawText s).2).jobs,
            j.id = jobIdOf uid dt ∧ j.runMin = (dt.toMin : Int) - (a : Int)
              ∧ j.runMin ≤ (now.toMin : Int))
    ∧ ((dt.toMin : Int) - (a : Int) < 0 →
        handle_message now uid rawText s = (Reply.error, s)) := by
  rw [handle_message_submit hp, submitReminder_some hp, if_neg hc, if_neg hfuture]
  constructor
  · intro hov
    rw [if_neg hov]
    exact ⟨rfl, _, putJob_mem _ _, rfl, rfl, hfire⟩
  · intro hov
    rw [if_pos hov]

/-- Witness for c10_past_fire_amended: lead 999999 minutes puts the
fire time about two years before now (but after datetime.min) while
the trigger is in the future. -/
theorem c10_past_fire_amended_witness :
    (¬ ((⟨2024, 6, 12, 15, 30⟩ : DateTime).toMin : Int) - (999999 : Int) < 0 →
      (handle_message ⟨2024, 1, 1, 0, 0⟩ "U1".toList
          "6月12日 15:30 開會 提前999999分鐘提醒".toList ⟨[], []⟩).1
        = Reply.scheduled ⟨2024, 6, 12, 15, 30⟩ "開會".toList 999999
        ∧ ∃ j ∈ ((handle_message ⟨2024, 1, 1, 0, 0⟩ "U1".toList
              "6月12日 15:30 開會 提前999999分鐘提醒".toList ⟨[], []⟩).2).jobs,
            j.id = jobIdOf "U1".toList ⟨2024, 6, 12, 15, 30⟩
              ∧ j.runMin = ((⟨2024, 6, 12, 15, 30⟩ : DateTime).toMin : Int) - (999999 : Int)
              ∧ j.runMin ≤ ((⟨2024, 1, 1, 0, 0⟩ : DateTime).toMin : Int))
    ∧ (((⟨2024, 6, 12, 15, 30⟩ : DateTime).toMin : Int) - (999999 : Int) < 0 →
        handle_message ⟨2024, 1, 1, 0, 0⟩ "U1".toList
            "6月12日 15:30 開會 提前999999分鐘提醒".toList ⟨[], []⟩
          = (Reply.error, ⟨[], []⟩)) :=
  c10_past_fire_amended ⟨2024, 1, 1, 0, 0⟩ "U1".toList
    "6月12日 15:30 開會 提前999999分鐘提醒".toList ⟨[], []⟩
    ⟨2024, 6, 12, 15, 30⟩ "開會".toList 999999
    (by decide) (by decide) (by decide) (by decide)

/-- C9: the user_reminders dict only ever grows (its key set is
preserved by every operation and extended by a successful scheduling),
firing never touches it, and neither the reply nor the resulting job
store depends on its contents. -/
theorem c9_user_reminders_frame (now : DateTime) (uid rawText : List Char) (s : Store)
    (jid : List Char) (ur2 : List (List Char × URec)) :
    urKeys s.userReminders ⊆ urKeys ((handle_message now uid rawText s).2).userReminders
    ∧ (fireJob jid s).userReminders = s.userReminders
    ∧ (handle_message now uid rawText ⟨s.jobs, ur2⟩).1 = (handle_message now uid rawText s).1
    ∧ ((handle_message now uid rawText ⟨s.jobs, ur2⟩).2).jobs
        = ((handle_message now uid rawText s).2).jobs
    ∧ (∀ dt c a, (handle_message now uid rawText s).1 = Reply.scheduled dt c a →
        jobIdOf uid dt ∈ urKeys ((handle_message now uid rawText s).2).userReminders) := by
  by_cases h1 : lowerL (trimL rawText) ∈ listCmds
  · rw [handle_message_list s h1, handle_message_list (Store.mk s.jobs ur2) h1]
    refine ⟨fun x hx => hx, rfl, rfl, rfl, ?_⟩
    intro dt c a habs
    by_cases h2 : s.jobs.filter (fun j => (keyPre uid).isPrefixOf j.id) = []
    · rw [if_pos h2] at habs
      exact absurd habs (by simp)
    · rw [if_neg h2] at habs
      exact absurd habs (by simp)
  · by_cases h2 : lowerL (trimL rawText) ∈ clearCmds
    · rw [handle_message_clear s h1 h2, handle_message_clear (Store.mk s.jobs ur2) h1 h2]
      exact ⟨fun x hx => hx, rfl, rfl, rfl, fun dt c a habs => absurd habs (by simp)⟩
    · rw [handle_message_other s h1 h2, handle_message_other (Store.mk s.jobs ur2) h1 h2]
      cases hp : parse_reminder_text now (trimL rawText) with
      | none =>
        rw [@submitReminder_none now uid (trimL rawText) s hp,
          @submitReminder_none now uid (trimL rawText) ⟨s.jobs, ur2⟩ hp]
        exact ⟨fun x hx => hx, rfl, rfl, rfl, fun dt c a habs => absurd habs (by simp)⟩
      | some r =>
        obtain ⟨dt', c', a'⟩ := r
        rw [@submitReminder_some now uid (trimL rawText) s dt' c' a' hp,
          @submitReminder_some now uid (trimL rawText) ⟨s.jobs, ur2⟩ dt' c' a' hp]
        by_cases hc : c' = []
        · rw [if_pos hc, if_pos hc]
          exact ⟨fun x hx => hx, rfl, rfl, rfl, fun dt c a habs => absurd habs (by simp)⟩
        · rw [if_neg hc, if_neg hc]
          by_cases hpast : dt'.toMin ≤ now.toMin
          · rw [if_pos hpast, if_pos hpast]
            exact ⟨fun x hx => hx, rfl, rfl, rfl, fun dt c a habs => absurd habs (by simp)⟩
          · rw [if_neg hpast, if_neg hpast]
            by_cases hov : (dt'.toMin : Int) - (a' : Int) < 0
            · rw [if_pos hov, if_pos hov]
              exact ⟨fun x hx => hx, rfl, rfl, rfl, fun dt c a habs => absurd habs (by simp)⟩
            · rw [if_neg hov, if_neg hov]
              refine ⟨urKeys_subset_putURec _ _ _, rfl, rfl, rfl, ?_⟩
              intro dt c a habs
              have h' : Reply.scheduled dt' c' a' = Reply.scheduled dt c a := habs
              injection h' with e1 e2 e3
              subst e1
              exact putURec_mem_key _ _ _

/-- Witness for c9_user_reminders_frame. -/
theorem c9_user_reminders_frame_witness :
    urKeys (Store.mk [] []).userReminders
        ⊆ urKeys ((handle_message ⟨2024, 1, 1, 0, 0⟩ "U1".toList
            "6月12日 15:30 開會".toList ⟨[], []⟩).2).userReminders
    ∧ (fireJob "j".toList ⟨[], []⟩).userReminders = (Store.mk [] []).userReminders
    ∧ (handle_message ⟨2024, 1, 1, 0, 0⟩ "U1".toList "6月12日 15:30 開會".toList
        ⟨(Store.mk [] []).jobs, [("k".toList, ⟨"U2".toList, [], [], 0⟩)]⟩).1
        = (handle_message ⟨2024, 1, 1, 0, 0⟩ "U1".toList "6月12日 15:30 開會".toList
            ⟨[], []⟩).1
    ∧ ((handle_message ⟨2024, 1, 1, 0, 0⟩ "U1".toList "6月12日 15:30 開會".toList
        ⟨(Store.mk [] []).jobs, [("k".toList, ⟨"U2".toList, [], [], 0⟩)]⟩).2).jobs
        = ((handle_message ⟨2024, 1, 1, 0, 0⟩ "U1".toList "6月12日 15:30 開會".toList
            ⟨[], []⟩).2).jobs
    ∧ (∀ dt c a,
        (handle_message ⟨2024, 1, 1, 0, 0⟩ "U1".toList "6月12日 15:30 開會".toList
          ⟨[], []⟩).1 = Reply.scheduled dt c a →
        jobIdOf "U1".toList dt
          ∈ urKeys ((handle_message ⟨2024, 1, 1, 0, 0⟩ "U1".toList
              "6月12日 15:30 開會".toList ⟨[], []⟩).2).userReminders) :=
  c9_user_reminders_frame ⟨2024, 1, 1, 0, 0⟩ "U1".toList "6月12日 15:30 開會".toList
    ⟨[], []⟩ "j".toList [("k".toList, ⟨"U2".toList, [], [], 0⟩)]

end LineReminder
